import Mathlib

/-!
Shallow embedding of the Cowboy edge-router (request routing, middleware
chain execution, response building, scheduled-endpoint injection and the
proxy self-call surface) from `src/lib/request.js` and
`src/lib/response.js`, together with theorems settling the frozen claims
about that code.  JavaScript dynamic values are embedded as explicit
inductive types; the mutable `res` object is threaded as explicit state.
-/

/-- A JSON-style JavaScript value (used for parsed bodies, middleware
return payloads and `JSON.stringify` inputs).  Numbers are modelled as
integers, which covers every value the claims exercise. -/
inductive Json where
  | null
  | bool (b : Bool)
  | num (n : Int)
  | str (s : String)
  | arr (elems : List Json)
  | obj (fields : List (String × Json))

/-- JavaScript truthiness of a `Json` value (`null`, `false`, `0` and the
empty string are falsy; every array or object is truthy). -/
def Json.truthy : Json → Bool
  | Json.null => false
  | Json.bool b => b
  | Json.num n => n != 0
  | Json.str s => s != ""
  | Json.arr _ => true
  | Json.obj _ => true

/-- Truthiness of a property lookup `j[k]` on a `Json` value: only an
object with a truthy field named `k` yields `true`; on every other value
the lookup is `undefined`, hence falsy. -/
def Json.fieldTruthy (j : Json) (k : String) : Bool :=
  match j with
  | Json.obj fs =>
    match fs.find? (fun p => p.fst == k) with
    | some p => p.snd.truthy
    | none => false
  | _ => false

/-- Quote a string as a JSON string literal (escaping quotes and
backslashes; other escape sequences are not needed by the claims). -/
def jsonQuote (s : String) : String :=
  let esc := s.data.foldl
    (fun acc c =>
      if c.toNat = 34 then acc ++ [Char.ofNat 92, Char.ofNat 34]
      else if c.toNat = 92 then acc ++ [Char.ofNat 92, Char.ofNat 92]
      else acc ++ [c])
    []
  String.mk (Char.ofNat 34 :: esc ++ [Char.ofNat 34])

mutual
/-- `JSON.stringify` on the embedded `Json` values. -/
def Json.stringify : Json → String
  | Json.null => "null"
  | Json.bool true => "true"
  | Json.bool false => "false"
  | Json.num n => toString n
  | Json.str s => jsonQuote s
  | Json.arr xs => "[" ++ stringifyElems xs ++ "]"
  | Json.obj fs => "\x7b" ++ stringifyFields fs ++ "\x7d"

/-- Comma-separated serialization of JSON array elements. -/
def stringifyElems : List Json → String
  | [] => ""
  | [j] => Json.stringify j
  | j :: rest => Json.stringify j ++ "," ++ stringifyElems rest

/-- Comma-separated serialization of JSON object members. -/
def stringifyFields : List (String × Json) → String
  | [] => ""
  | [(k, v)] => jsonQuote k ++ ":" ++ Json.stringify v
  | (k, v) :: rest => jsonQuote k ++ ":" ++ Json.stringify v ++ "," ++ stringifyFields rest
end

/-- Whitespace characters skipped by the JSON reader. -/
def jsonWs (c : Char) : Bool := c = ' ' || c = '\n' || c = '\t' || c = '\r'

/-- Read a run of decimal digits into a natural number. -/
def parseDigits (cs : List Char) : Option (Nat × List Char) :=
  let ds := cs.takeWhile Char.isDigit
  if ds.isEmpty then none
  else some (ds.foldl (fun acc c => acc * 10 + (c.toNat - 48)) 0, cs.drop ds.length)

/-- Read an optionally negated integer literal. -/
def parseIntLit (cs : List Char) : Option (Int × List Char) :=
  match cs with
  | '-' :: rest => (parseDigits rest).map (fun p => (-(p.fst : Int), p.snd))
  | _ => (parseDigits cs).map (fun p => ((p.fst : Int), p.snd))

/-- Read the body of a JSON string literal after its opening quote, up to
and including the closing quote (escape sequences are not modelled). -/
def parseStringLit (cs : List Char) : Option (String × List Char) :=
  let content := cs.takeWhile (fun c => c.toNat != 34)
  match cs.drop content.length with
  | _ :: rest => some (String.mk content, rest)
  | [] => none

mutual
/-- Fuel-bounded reader for a JSON value. -/
def parseJsonVal : Nat → List Char → Option (Json × List Char)
  | 0, _ => none
  | fuel + 1, cs =>
    match cs.dropWhile jsonWs with
    | [] => none
    | c :: rest =>
      if c.toNat = 123 then parseObjFields fuel rest []
      else if c = '[' then parseArrElems fuel rest []
      else if c.toNat = 34 then (parseStringLit rest).map (fun p => (Json.str p.fst, p.snd))
      else if c = 'n' then
        match rest with
        | 'u' :: 'l' :: 'l' :: r => some (Json.null, r)
        | _ => none
      else if c = 't' then
        match rest with
        | 'r' :: 'u' :: 'e' :: r => some (Json.bool true, r)
        | _ => none
      else if c = 'f' then
        match rest with
        | 'a' :: 'l' :: 's' :: 'e' :: r => some (Json.bool false, r)
        | _ => none
      else if c = '-' || c.isDigit then
        (parseIntLit (c :: rest)).map (fun p => (Json.num p.fst, p.snd))
      else none

/-- Fuel-bounded reader for JSON object members, entered just after the
opening brace or a separating comma. -/
def parseObjFields : Nat → List Char → List (String × Json) → Option (Json × List Char)
  | 0, _, _ => none
  | fuel + 1, cs, acc =>
    match cs.dropWhile jsonWs with
    | [] => none
    | c :: rest =>
      if c.toNat = 125 && acc.isEmpty then some (Json.obj [], rest)
      else if c.toNat = 34 then
        match parseStringLit rest with
        | none => none
        | some (k, rest1) =>
          match rest1.dropWhile jsonWs with
          | ':' :: rest2 =>
            match parseJsonVal fuel rest2 with
            | none => none
            | some (v, rest3) =>
              match rest3.dropWhile jsonWs with
              | ',' :: rest4 => parseObjFields fuel rest4 (acc ++ [(k, v)])
              | d :: rest4 =>
                if d.toNat = 125 then some (Json.obj (acc ++ [(k, v)]), rest4) else none
              | [] => none
          | _ => none
      else none

/-- Fuel-bounded reader for JSON array elements, entered just after the
opening bracket or a separating comma. -/
def parseArrElems : Nat → List Char → List Json → Option (Json × List Char)
  | 0, _, _ => none
  | fuel + 1, cs, acc =>
    match cs.dropWhile jsonWs with
    | [] => none
    | c :: rest =>
      if c = ']' && acc.isEmpty then some (Json.arr [], rest)
      else
        match parseJsonVal fuel (c :: rest) with
        | none => none
        | some (v, rest1) =>
          match rest1.dropWhile jsonWs with
          | ',' :: rest2 => parseArrElems fuel rest2 (acc ++ [v])
          | ']' :: rest2 => some (Json.arr (acc ++ [v]), rest2)
          | _ => none
end

/-- `JSON.parse` on the embedded values: reads one JSON value and requires
only trailing whitespace after it. -/
def Json.parse (s : String) : Option Json :=
  match parseJsonVal (s.length + 8) s.data with
  | some (j, rest) => if (rest.dropWhile jsonWs).isEmpty then some j else none
  | none => none

/-- The possible states of `CowboyResponse.body` (`src/lib/response.js`):
a string (the initial value is `''`), one of the transmit-safe container
objects accepted verbatim by `send`, or JavaScript `null` (assigned by
`status` for 1xx/3xx codes). -/
inductive BodyVal where
  | str (s : String)
  | formData (entries : List (String × String))
  | stream
  | urlParams (entries : List (String × String))
  | jsNull
deriving DecidableEq

/-- JavaScript truthiness of the stored body (`!this.body` in
`CowboyResponse.status`): `''` and `null` are falsy, containers and
non-empty strings are truthy. -/
def BodyVal.truthy : BodyVal → Bool
  | BodyVal.str s => s != ""
  | BodyVal.jsNull => false
  | _ => true

/-- A value handed to `CowboyResponse.send`: either one of the
transmit-safe primitives (`string`, `FormData`, `ReadableStream`,
`URLSearchParams`) stored verbatim, or any other value, which `send`
serializes with `JSON.stringify`. -/
inductive SendVal where
  | str (s : String)
  | formData (entries : List (String × String))
  | stream
  | urlParams (entries : List (String × String))
  | json (j : Json)

/-- JavaScript truthiness of a `SendVal` (used by `end`'s `if (data)`). -/
def SendVal.truthy : SendVal → Bool
  | SendVal.str s => s != ""
  | SendVal.json j => j.truthy
  | _ => true

/-- The data fields of `CowboyResponse` (`src/lib/response.js`): body,
nullable status code, header map and the has-completed flag.  Split from
the hook queue so that before-serve hooks can be typed as functions over
this state. -/
structure ResponseCore where
  body : BodyVal := BodyVal.str ""
  code : Option Nat := none
  headers : List (String × String) := []
  hasSent : Bool := false

/-- The full `CowboyResponse` object: its data fields plus the
`beforeServeCallbacks` hook queue (hooks mutate the data fields). -/
structure CowboyResponse extends ResponseCore where
  beforeServeCallbacks : List (ResponseCore → ResponseCore) := []

/-- Header-object assignment `this.headers[key] = value`: replaces an
existing entry for the key in place, otherwise appends. -/
def setHeader (hs : List (String × String)) (k v : String) : List (String × String) :=
  if hs.any (fun p => p.fst == k) then
    hs.map (fun p => if p.fst == k then (k, v) else p)
  else hs ++ [(k, v)]

/-- `CowboyResponse.set(header, value)` for a single string header. -/
def CowboyResponse.set (r : CowboyResponse) (k v : String) : CowboyResponse :=
  { r with headers := setHeader r.headers k v }

/-- `CowboyResponse.send(data, end = true)`: defaults an unset status code
to 200, stores transmit-safe primitives verbatim and serializes anything
else with `JSON.stringify`, then (when ending) raises the has-completed
flag. -/
def CowboyResponse.send (r : CowboyResponse) (data : SendVal) (endFlag : Bool) : CowboyResponse :=
  let r := if r.code = none then { r with code := some 200 } else r
  let r := { r with body :=
    match data with
    | SendVal.str s => BodyVal.str s
    | SendVal.formData es => BodyVal.formData es
    | SendVal.stream => BodyVal.stream
    | SendVal.urlParams es => BodyVal.urlParams es
    | SendVal.json j => BodyVal.str (Json.stringify j) }
  if endFlag then { r with hasSent := true } else r

/-- `CowboyResponse.end(data?)`: optional `send` (only when `data` is
truthy), then unconditionally raises the has-completed flag.  Named
`endTransmission` because `end` is a Lean keyword. -/
def CowboyResponse.endTransmission (r : CowboyResponse) (data : Option SendVal) : CowboyResponse :=
  let r := match data with
    | some d => if d.truthy then r.send d true else r
    | none => r
  { r with hasSent := true }

/-- `CowboyResponse.status(code)`: stores the code, then applies the
default-body rules exactly as written in the source — for a 2xx code with
a falsy body it assigns the inner conditional (whose failure branch is
unreachable there), for a 1xx or 3xx code it assigns `null`, and for any
other code it leaves the body alone. -/
def CowboyResponse.status (r : CowboyResponse) (code : Nat) : CowboyResponse :=
  let r := { r with code := some code }
  if 200 ≤ code ∧ code ≤ 299 then
    if r.body.truthy then r
    else { r with body :=
      if 200 ≤ code ∧ code ≤ 299 then BodyVal.str "ok"
      else BodyVal.str (toString code ++ ": Fail") }
  else if code < 200 ∨ (300 ≤ code ∧ code ≤ 399) then
    { r with body := BodyVal.jsNull }
  else r

/-- `CowboyResponse.sendStatus(code)` without the disallowed data
argument: set the status, then end the transmission. -/
def CowboyResponse.sendStatus (r : CowboyResponse) (code : Nat) : CowboyResponse :=
  (r.status code).endTransmission none

/-- `CowboyResponse.beforeServe(cb)`: queue a hook to run before the final
conversion to a native response. -/
def CowboyResponse.beforeServe (r : CowboyResponse) (cb : ResponseCore → ResponseCore) :
    CowboyResponse :=
  { r with beforeServeCallbacks := r.beforeServeCallbacks ++ [cb] }

/-- The native (Cloudflare) response value produced at the end of a
dispatch: status, headers and body as handed to the platform `Response`
constructor. -/
structure NativeResponse where
  status : Option Nat
  headers : List (String × String)
  body : BodyVal

/-- `CowboyResponse.toCloudflareResponse()`: run the queued before-serve
hooks in order over the response state, then build the native response
from the status, headers and body. -/
def CowboyResponse.toNative (r : CowboyResponse) : NativeResponse :=
  let core := r.beforeServeCallbacks.foldl (fun acc cb => cb acc) r.toResponseCore
  { status := core.code, headers := core.headers, body := core.body }

/-- The per-invocation environment bindings read by `fetch`: the
truthiness of the `COWBOY_SCHEDULER` and `COWBOY_DEBUG` variables. -/
structure Env where
  COWBOY_SCHEDULER : Bool := false
  COWBOY_DEBUG : Bool := false

/-- The body of a native inbound request: absent, a string, or one of the
native container objects. -/
inductive NativeBody where
  | none
  | str (s : String)
  | formData (entries : List (String × String))
  | stream
  | urlParams (entries : List (String × String))

/-- A native (Cloudflare) inbound request as consumed by `fetch`: method,
URL pathname, hostname, headers and body. -/
structure NativeRequest where
  method : String := "GET"
  path : String
  hostname : String := "localhost"
  headers : List (String × String) := []
  body : NativeBody := NativeBody.none

/-- The normalized `CowboyRequest` (`src/lib/request.js`): method, tidied
path, hostname, headers, the native body, and the `body` field that
body-parsing later mutates in place (`rawText` retains the undecoded text
for opaque content types). -/
structure CowboyRequest where
  method : String := "GET"
  path : String
  hostname : String := "localhost"
  headers : List (String × String) := []
  nativeBody : NativeBody := NativeBody.none
  body : Json := Json.null
  rawText : String := ""

/-- Word character test for the `\w+` part of the default path-tidy
regular expression. -/
def isWordChar (c : Char) : Bool := c.isAlphanum || c = '_'

/-- `path.replace(/^\/api\/\w+/, '/')`: strip one leading
`/api/<segment>` in favour of a single slash. -/
def stripApiRoot (s : String) : String :=
  match s.data with
  | '/' :: 'a' :: 'p' :: 'i' :: '/' :: c :: rest =>
    if isWordChar c then String.mk ('/' :: (c :: rest).dropWhile isWordChar) else s
  | _ => s

/-- `path.replace(/^\/+/, '/')`: collapse repeated leading slashes. -/
def collapseLeadingSlashes (s : String) : String :=
  match s.data with
  | '/' :: _ => String.mk ('/' :: s.data.dropWhile (fun c => c = '/'))
  | _ => s

/-- The default `settings.pathTidy` of the router. -/
def defaultPathTidy (s : String) : String :=
  collapseLeadingSlashes (stripApiRoot s)

/-- Lower-case a string character by character. -/
def strLower (s : String) : String :=
  String.mk (s.data.map Char.toLower)

/-- Whitespace test for header-value trimming. -/
def wsChar (c : Char) : Bool := c = ' ' || c = '\t' || c = '\n' || c = '\r'

/-- Trim leading and trailing whitespace from a character list. -/
def trimChars (cs : List Char) : List Char :=
  ((cs.dropWhile wsChar).reverse.dropWhile wsChar).reverse

/-- Case-insensitive header lookup (header maps have case-insensitive
keys). -/
def headerLookup (hs : List (String × String)) (k : String) : Option String :=
  (hs.find? (fun p => strLower p.fst == k)).map Prod.snd

/-- The declared content type of a request: the `content-type` header up
to any `;` parameter, trimmed and lowercased; `""` when absent. -/
def contentTypeOf (hs : List (String × String)) : String :=
  match headerLookup hs "content-type" with
  | some v => strLower (String.mk (trimChars (v.data.takeWhile (fun c => c ≠ ';'))))
  | none => ""

/-- The request body as text, for decoding purposes (absent or
non-textual native bodies read as `""`). -/
def CowboyRequest.bodyText (req : CowboyRequest) : String :=
  match req.nativeBody with
  | NativeBody.str s => s
  | _ => ""

/-- Split a character list on a separator character. -/
def splitChars (sep : Char) : List Char → List Char → List (List Char)
  | [], acc => [acc.reverse]
  | c :: rest, acc =>
    if c = sep then acc.reverse :: splitChars sep rest []
    else splitChars sep rest (c :: acc)

/-- Decode an `application/x-www-form-urlencoded` style payload into a
field mapping; a segment without exactly one `=` is a decode failure. -/
def decodeForm (s : String) : Option (List (String × String)) :=
  if s = "" then some [] else
  (splitChars '&' s.data []).mapM (fun seg =>
    match splitChars '=' seg [] with
    | [k, v] => some (String.mk k, String.mk v)
    | _ => none)

/-- Modelled from the spec: `CowboyRequest.parseBody` is awaited by
`Cowboy.fetch` (`src/lib/request.js`) but its definition is not among the
sources, so this follows spec section 4.2 — `application/json` with an
empty body short-circuits to an empty mapping, otherwise the body is
decoded as JSON text and a decode failure surfaces as the body-decode
error "Invalid JSON body"; multipart/urlencoded bodies decode to a field
mapping (failure: "Invalid multi-part encoded body"); `text/plain`
decodes to raw text; any other or missing content type keeps the body as
an empty mapping and retains the raw text separately. -/
def CowboyRequest.parseBody (req : CowboyRequest) : Except String CowboyRequest :=
  let ct := contentTypeOf req.headers
  let fieldsToJson := fun (es : List (String × String)) =>
    Json.obj (es.map (fun p => (p.fst, Json.str p.snd)))
  if ct = "application/json" then
    if req.bodyText = "" then Except.ok { req with body := Json.obj [] }
    else
      match Json.parse req.bodyText with
      | some j => Except.ok { req with body := j }
      | none => Except.error "Invalid JSON body"
  else if ct = "multipart/form-data" ∨ ct = "application/x-www-form-urlencoded" then
    match req.nativeBody with
    | NativeBody.formData es => Except.ok { req with body := fieldsToJson es }
    | NativeBody.urlParams es => Except.ok { req with body := fieldsToJson es }
    | _ =>
      match decodeForm req.bodyText with
      | some es => Except.ok { req with body := fieldsToJson es }
      | none => Except.error "Invalid multi-part encoded body"
  else if ct = "text/plain" then
    Except.ok { req with body := Json.str req.bodyText }
  else
    Except.ok { req with body := Json.obj [], rawText := req.bodyText }

/-- The value a middleware item returns to the dispatcher: `undefined`, a
plain JavaScript value, the shared response object itself, or some other
`CowboyResponse` instance. -/
inductive RetVal where
  | undef
  | value (j : Json)
  | sharedRes
  | otherRes (r : CowboyResponse)

/-- JavaScript truthiness of a middleware return value. -/
def RetVal.isTruthy : RetVal → Bool
  | RetVal.undef => false
  | RetVal.value j => j.truthy
  | RetVal.sharedRes => true
  | RetVal.otherRes _ => true

/-- `response instanceof CowboyResponse` on a middleware return value. -/
def RetVal.isResponse : RetVal → Bool
  | RetVal.sharedRes => true
  | RetVal.otherRes _ => true
  | _ => false

/-- `response?.hasSent`, evaluated against the current state `res` of the
shared response object: only the returned value's own property is
consulted (a plain object is inspected for a `hasSent` field; primitives
and `undefined` read as falsy). -/
def retHasSent (res : CowboyResponse) : RetVal → Bool
  | RetVal.undef => false
  | RetVal.value j => j.fieldTruthy "hasSent"
  | RetVal.sharedRes => res.hasSent
  | RetVal.otherRes r => r.hasSent

/-- Convert a truthy non-response middleware return value into the
payload handed to `res.end(response)`: strings travel verbatim through
`send`, anything else is serialized by it. -/
def RetVal.toSendVal : RetVal → SendVal
  | RetVal.value (Json.str s) => SendVal.str s
  | RetVal.value j => SendVal.json j
  | _ => SendVal.json Json.null

/-- A value thrown by a middleware item, with the shapes distinguished by
the dispatcher's error-text derivation ladder. -/
inductive ErrVal where
  | nullish
  | str (s : String)
  | errObj (msg : String)
  | objError (s : String)
  | objErr (s : String)
  | objData (s : String)
  | objDataErrmsg (s : String)
  | statusNeg1
  | otherObj

/-- The generic fallback error message. -/
def unknownErrorText : String := "An unknown error has occured"

/-- The dispatcher's error-text derivation (`Cowboy.execMiddleware` catch
branch): falsy values give the generic message; a thrown string is used
directly (an empty string is falsy and also falls back); an `Error`
instance contributes `toString()` with the `Error: ` lead-in removed; the
conventional `{error}`, `{err}`, `{data}`, `{data:{errmsg}}` shapes and
`{status: -1}` each contribute their text; anything else falls back. -/
def errorText : ErrVal → String
  | ErrVal.nullish => unknownErrorText
  | ErrVal.str s => if s = "" then unknownErrorText else s
  | ErrVal.errObj msg => if msg = "" then "Error" else msg
  | ErrVal.objError s => if s = "" then unknownErrorText else s
  | ErrVal.objErr s => if s = "" then unknownErrorText else s
  | ErrVal.objData s => if s = "" then unknownErrorText else s
  | ErrVal.objDataErrmsg s => if s = "" then unknownErrorText else s
  | ErrVal.statusNeg1 => "Server connection failed"
  | ErrVal.otherObj => unknownErrorText

/-- The guard `/^(\d{3}):/.test(errorText)`: three leading decimal digits
immediately followed by a colon. -/
def matchesCodeColon (s : String) : Bool :=
  match s.data with
  | a :: b :: c :: d :: _ => a.isDigit && b.isDigit && c.isDigit && d = ':'
  | _ => false

/-- The numeric value of the leading three digits of a matched error
text (the `status` capture group). -/
def codeDigits (s : String) : Nat :=
  match s.data with
  | a :: b :: c :: _ => (a.toNat - 48) * 100 + (b.toNat - 48) * 10 + (c.toNat - 48)
  | _ => 0

/-- The `text` capture group of a matched error text: everything after
the colon, leading whitespace included. -/
def textRemainder (s : String) : String :=
  String.mk (s.data.drop 4)

/-- The catch branch of `Cowboy.execMiddleware`: derive the error text;
when it matches `<3-digit-code>:` use that code as the status and the
remainder as the body, otherwise respond 400 with the derived text. -/
def applyError (res : CowboyResponse) (e : ErrVal) : CowboyResponse :=
  let t := errorText e
  if matchesCodeColon t then
    (res.status (codeDigits t)).send (SendVal.str (textRemainder t)) true
  else
    (res.status 400).send (SendVal.str t) true

/-- The outcome of one middleware call: the (possibly mutated) shared
response state, and either a returned value or a thrown one. -/
structure MwResult where
  res : CowboyResponse
  out : Except ErrVal RetVal

/-- A middleware callable: `(req, res, env)` to a call outcome. -/
abbrev Mw := CowboyRequest → CowboyResponse → Env → MwResult

/-- The handler registered through `Cowboy.schedule`: given the
environment it either resolves to a payload or rejects with the thrown
error's string rendering. -/
abbrev ScheduleHandler := Env → Except String SendVal

/-- An item of a middleware chain: a plain callable, or the synthetic
`/__scheduled` endpoint middleware that `fetch` injects (kept symbolic so
that it can read the router's current schedule handler). -/
inductive MwItem where
  | fn (f : Mw)
  | scheduler

/-- Run one middleware item.  The `scheduler` item behaves as the closure
in `Cowboy.fetch`: with no installed handler it returns
`res.status(404).send('No scheduler installed')`; otherwise it invokes
the handler, sending its result, or answering 400 with
`Scheduler threw error: ...` when the handler rejects. -/
def runMwItem (sched : Option ScheduleHandler) (req : CowboyRequest) (env : Env)
    (item : MwItem) (res : CowboyResponse) : MwResult :=
  match item with
  | MwItem.fn f => f req res env
  | MwItem.scheduler =>
    match sched with
    | none =>
      { res := (res.status 404).send (SendVal.str "No scheduler installed") true
        out := Except.ok RetVal.sharedRes }
    | some h =>
      match h env with
      | Except.ok v =>
        { res := res.send v true, out := Except.ok RetVal.sharedRes }
      | Except.error s =>
        { res := (res.status 400).send (SendVal.str ("Scheduler threw error: " ++ s)) true
          out := Except.ok RetVal.sharedRes }

/-- What the `response` variable of `Cowboy.execMiddleware` holds when
the loop finishes: the shared response object, some other response
instance, or a raw (necessarily falsy) returned value. -/
inductive ChainOut where
  | shared
  | other (r : CowboyResponse)
  | value (v : RetVal)

/-- `Cowboy.execMiddleware` (`src/lib/request.js`): run the chain in
order.  After each item: a thrown value is converted through the catch
branch and ends the chain on the shared response; a returned value whose
own `hasSent` reads truthy ends the chain on the shared response; a
truthy non-response value returned by the last item is wrapped with
`res.end(value)`; otherwise the last item's value is the chain's result
and intermediate values are discarded. -/
def execMiddleware (sched : Option ScheduleHandler) (req : CowboyRequest) (env : Env) :
    List MwItem → CowboyResponse → CowboyResponse × ChainOut
  | [], res => (res, ChainOut.value RetVal.undef)
  | item :: rest, res =>
    let step := runMwItem sched req env item res
    match step.out with
    | Except.error e => (applyError step.res e, ChainOut.shared)
    | Except.ok v =>
      if retHasSent step.res v then (step.res, ChainOut.shared)
      else
        match rest with
        | [] =>
          if v.isTruthy && !v.isResponse then
            (step.res.endTransmission (some v.toSendVal), ChainOut.shared)
          else
            match v with
            | RetVal.sharedRes => (step.res, ChainOut.shared)
            | RetVal.otherRes r => (step.res, ChainOut.other r)
            | v => (step.res, ChainOut.value v)
        | _ :: _ => execMiddleware sched req env rest step.res

/-- A registered route: accepted methods, compiled path matcher and the
middleware chain.  The matcher abstracts the external path-match
library's `isMatch`. -/
structure Route where
  methods : List String
  matcher : String → Bool
  middleware : List MwItem

/-- How `settings.scheduler` can be configured: `true`, `false`, or the
default `'VAR'` (enable when the `COWBOY_SCHEDULER` binding is truthy). -/
inductive SchedulerSetting where
  | off
  | on
  | var

/-- The Cowboy router instance state: path-tidy function, scheduler
setting, global middleware, registered routes, the one-time
`_schedulerSetup` flag and the currently installed schedule handler. -/
structure Cowboy where
  pathTidy : String → String := defaultPathTidy
  schedulerSetting : SchedulerSetting := SchedulerSetting.var
  earlyMiddleware : List MwItem := []
  routes : List Route := []
  schedulerSetup : Bool := false
  scheduleHandler : Option ScheduleHandler := none

/-- `Cowboy.route(methods, paths, ...middleware)`: push the new route at
the end of the route list. -/
def Cowboy.route (c : Cowboy) (methods : List String) (matcher : String → Bool)
    (mws : List MwItem) : Cowboy :=
  { c with routes := c.routes ++ [{ methods := methods, matcher := matcher, middleware := mws }] }

/-- The `get` alias of `route`. -/
def Cowboy.get (c : Cowboy) (matcher : String → Bool) (mws : List MwItem) : Cowboy :=
  c.route ["GET"] matcher mws

/-- The `post` alias of `route`. -/
def Cowboy.post (c : Cowboy) (matcher : String → Bool) (mws : List MwItem) : Cowboy :=
  c.route ["POST"] matcher mws

/-- `Cowboy.use(...middleware)`: append to the global middleware list. -/
def Cowboy.use (c : Cowboy) (mws : List MwItem) : Cowboy :=
  { c with earlyMiddleware := c.earlyMiddleware ++ mws }

/-- `Cowboy.schedule(handler)`: install (overwriting) the schedule
handler. -/
def Cowboy.schedule (c : Cowboy) (h : ScheduleHandler) : Cowboy :=
  { c with scheduleHandler := some h }

/-- Whether a route accepts a request: its method list contains the
request method and its matcher accepts the tidied path. -/
def routeMatches (req : CowboyRequest) (r : Route) : Bool :=
  r.methods.contains req.method && r.matcher req.path

/-- `Cowboy.resolve(req)`: the first registered route matching the
request. -/
def Cowboy.resolve (c : Cowboy) (req : CowboyRequest) : Option Route :=
  c.routes.find? (routeMatches req)

/-- The scheduler-enablement test of `fetch`:
`settings.scheduler === true || (settings.scheduler == 'VAR' && env.COWBOY_SCHEDULER)`. -/
def schedulerEnabled : SchedulerSetting → Env → Bool
  | SchedulerSetting.on, _ => true
  | SchedulerSetting.var, env => env.COWBOY_SCHEDULER
  | SchedulerSetting.off, _ => false

/-- The synthetic `/__scheduled` route injected by `fetch`: a GET route
with an exact-literal matcher (spec section 4.1: exact string patterns
match exactly) whose only middleware is the scheduler endpoint. -/
def scheduledRoute : Route :=
  { methods := ["GET"]
    matcher := fun p => p == "/__scheduled"
    middleware := [MwItem.scheduler] }

/-- The scheduler-setup prologue of `Cowboy.fetch`: on the first dispatch
with scheduling enabled, raise the `_schedulerSetup` flag and splice the
synthetic route in just before the first route accepting GET
(`findIndex` falls back to the list length, i.e. appending, when no GET
route exists). -/
def Cowboy.applyScheduler (c : Cowboy) (env : Env) : Cowboy :=
  if !c.schedulerSetup && schedulerEnabled c.schedulerSetting env then
    let idx := c.routes.findIdx (fun r => r.methods.contains "GET")
    { c with
      schedulerSetup := true
      routes := c.routes.take idx ++ [scheduledRoute] ++ c.routes.drop idx }
  else c

/-- Wrap a native inbound request into a `CowboyRequest`, applying the
router's path tidy function (the `CowboyRequest` constructor). -/
def Cowboy.inbound (c : Cowboy) (cfReq : NativeRequest) : CowboyRequest :=
  { method := cfReq.method
    path := c.pathTidy cfReq.path
    hostname := cfReq.hostname
    headers := cfReq.headers
    nativeBody := cfReq.body }

/-- The route-chain stage of a dispatch: run the global middleware over a
fresh response, then the route's own chain over the resulting shared
response state. -/
def Cowboy.routeChainResult (c : Cowboy) (req : CowboyRequest) (env : Env) (route : Route) :
    CowboyResponse × ChainOut :=
  execMiddleware c.scheduleHandler req env route.middleware
    (execMiddleware c.scheduleHandler req env c.earlyMiddleware {}).fst

/-- The dispatch core of `Cowboy.fetch` after the request is built and
parsed: run the global middleware, resolve the route (finalizing 404 on
no match), run the route chain, and finalize — a falsy chain result is
the fatal `Middleware chain ended without returning a response!` error
thrown out of `fetch`. -/
def Cowboy.dispatch (c : Cowboy) (req : CowboyRequest) (env : Env) :
    Except String NativeResponse :=
  match c.resolve req with
  | none =>
    Except.ok
      (((execMiddleware c.scheduleHandler req env c.earlyMiddleware {}).fst.sendStatus 404).toNative)
  | some route =>
    match c.routeChainResult req env route with
    | (res2, ChainOut.shared) => Except.ok res2.toNative
    | (_, ChainOut.other r) => Except.ok r.toNative
    | (_, ChainOut.value _) => Except.error "Middleware chain ended without returning a response!"

/-- `Cowboy.fetch(cfReq, env)`: run the scheduler setup prologue, build
and body-parse the request, then dispatch.  Returns the updated router
state together with the outcome; a fatal framework invariant violation
surfaces as `Except.error`.  The body-parse failure branch is modelled
from the spec (section 7): a body-decode error propagates through the
chain-execution error path, yielding a 400-class response. -/
def Cowboy.fetch (c : Cowboy) (cfReq : NativeRequest) (env : Env) :
    Cowboy × Except String NativeResponse :=
  let c := c.applyScheduler env
  match (c.inbound cfReq).parseBody with
  | Except.ok req => (c, c.dispatch req env)
  | Except.error msg => (c, Except.ok ((applyError {} (ErrVal.str msg)).toNative))

/-- The body field of the options handed to `proxy`: either a native
body container, or a plain key-value object. -/
inductive ProxyBody where
  | native (b : NativeBody)
  | obj (entries : List (String × String))

/-- The request options handed to `proxy`. -/
structure ProxyOptions where
  method : String := "GET"
  headers : List (String × String) := []
  body : ProxyBody := ProxyBody.native NativeBody.none

/-- The body conversion inside `proxy`: absent bodies, `FormData`,
`ReadableStream`, `URLSearchParams` and strings pass through unchanged;
a plain object is converted into `FormData` by appending its entries. -/
def convertProxyBody : ProxyBody → NativeBody
  | ProxyBody.native b => b
  | ProxyBody.obj entries => NativeBody.formData entries

/-- The pathname of `new URL(url, 'http://localhost')` for a path-style
url: ensure a leading slash and cut at the query or fragment. -/
def urlPathname (s : String) : String :=
  let p := String.mk (s.data.takeWhile (fun c => c ≠ '?' && c ≠ '#'))
  match p.data with
  | '/' :: _ => p
  | _ => "/" ++ p

/-- The fabricated native request `proxy` builds for a path and options:
same method and headers, the url's pathname, and the converted body. -/
def fabricatedRequest (url : String) (options : ProxyOptions) : NativeRequest :=
  { method := options.method
    headers := options.headers
    path := urlPathname url
    body := convertProxyBody options.body }

/-- `Cowboy.proxy(url, options, env)`: reject a missing url (the
options/env objects of the embedding are always present), otherwise
re-enter `fetch` with the fabricated request. -/
def Cowboy.proxy (c : Cowboy) (url : String) (options : ProxyOptions) (env : Env) :
    Except String (Cowboy × Except String NativeResponse) :=
  if url = "" then Except.error "Url + options + env must be specified to proxy()"
  else Except.ok (c.fetch (fabricatedRequest url options) env)

/-- The spec's description of the behaviour `proxy` must refine (spec
sections 6 and 8): a direct inbound invocation of the main entry point
with an equivalent fabricated request to the given path — same method,
headers and environment, plain key-value bodies converted to a
multipart-form container and native containers passed through. -/
def specDirectInvocation (c : Cowboy) (url : String) (options : ProxyOptions) (env : Env) :
    Cowboy × Except String NativeResponse :=
  c.fetch
    { method := options.method
      headers := options.headers
      path := urlPathname url
      body := convertProxyBody options.body }
    env

/-! Concrete fixtures for witnesses and counterexamples. -/

/-- A concrete environment with scheduling disabled. -/
def sampleEnv : Env := {}

/-- A concrete environment with the scheduler binding set. -/
def schedEnv : Env := { COWBOY_SCHEDULER := true }

/-- A concrete GET request to `/x`. -/
def sampleReq : CowboyRequest := { path := "/x" }

/-- Middleware `(req, res) => { res.end() }`: marks the shared response
complete but returns nothing. -/
def mwEndNoReturn : Mw := fun _ res _ =>
  { res := res.endTransmission none, out := Except.ok RetVal.undef }

/-- Middleware `(req, res) => res.set('X-Second', 'ran')`: records that it
ran in a header and returns the shared response. -/
def mwMarkSecond : Mw := fun _ res _ =>
  { res := res.set "X-Second" "ran", out := Except.ok RetVal.sharedRes }

/-- Middleware `(req, res) => res.end()`: marks the shared response
complete and returns it. -/
def mwEndReturn : Mw := fun _ res _ =>
  { res := res.endTransmission none, out := Except.ok RetVal.sharedRes }

/-- Middleware that throws the string `"404: widget missing"`. -/
def mwThrow404 : Mw := fun _ res _ =>
  { res := res, out := Except.error (ErrVal.str "404: widget missing") }

/-- Middleware that throws the string `"oops"`. -/
def mwThrowOops : Mw := fun _ res _ =>
  { res := res, out := Except.error (ErrVal.str "oops") }

/-- Middleware `(req, res) => { return }`: returns `undefined` without
touching the response. -/
def mwReturnUndef : Mw := fun _ res _ =>
  { res := res, out := Except.ok RetVal.undef }

/-- Middleware that returns the number `0` (a falsy plain value). -/
def mwReturnZero : Mw := fun _ res _ =>
  { res := res, out := Except.ok (RetVal.value (Json.num 0)) }

/-- Middleware `(req, res) => ({a: 1})`: returns a plain object without
touching the response. -/
def mwReturnObj : Mw := fun _ res _ =>
  { res := res, out := Except.ok (RetVal.value (Json.obj [("a", Json.num 1)])) }

/-- Middleware `(req, res) => { res.send('hi'); }`: sends and completes
the shared response but returns nothing. -/
def mwSendNoReturn : Mw := fun _ res _ =>
  { res := res.send (SendVal.str "hi") true, out := Except.ok RetVal.undef }

/-- Middleware `(req, res) => res.send('first')`: completes the response
and returns it. -/
def mwSendFirst : Mw := fun _ res _ =>
  { res := res.send (SendVal.str "first") true, out := Except.ok RetVal.sharedRes }

/-- Middleware `(req, res) => res.send('second')`. -/
def mwSendSecond : Mw := fun _ res _ =>
  { res := res.send (SendVal.str "second") true, out := Except.ok RetVal.sharedRes }

/-- A route matching `GET /x` whose chain returns `undefined`. -/
def undefRoute : Route :=
  { methods := ["GET"], matcher := fun p => p == "/x", middleware := [MwItem.fn mwReturnUndef] }

/-- A router (scheduler off) whose only route is `undefRoute`. -/
def undefRouter : Cowboy :=
  { schedulerSetting := SchedulerSetting.off, routes := [undefRoute] }

/-- A route matching `GET /x` whose chain sends and then returns
nothing. -/
def sendNoReturnRoute : Route :=
  { methods := ["GET"], matcher := fun p => p == "/x", middleware := [MwItem.fn mwSendNoReturn] }

/-- A router (scheduler off) whose only route is `sendNoReturnRoute`. -/
def sendNoReturnRouter : Cowboy :=
  { schedulerSetting := SchedulerSetting.off, routes := [sendNoReturnRoute] }

/-- The earlier of two routes both matching `GET /x`. -/
def firstDupRoute : Route :=
  { methods := ["GET"], matcher := fun p => p == "/x", middleware := [MwItem.fn mwSendFirst] }

/-- The later of two routes both matching `GET /x`. -/
def secondDupRoute : Route :=
  { methods := ["GET"], matcher := fun p => p == "/x", middleware := [MwItem.fn mwSendSecond] }

/-- A router registering `firstDupRoute` before `secondDupRoute`. -/
def dupRouter : Cowboy :=
  { schedulerSetting := SchedulerSetting.off, routes := [firstDupRoute, secondDupRoute] }

/-- A route matching `GET /x` whose handler simply returns `res` (so the
chain terminates on the shared response). -/
def okRoute : Route :=
  { methods := ["GET"], matcher := fun _ => true, middleware := [MwItem.fn mwMarkSecond] }

/-- A router (scheduler off) whose only route is `okRoute`. -/
def okRouter : Cowboy :=
  { schedulerSetting := SchedulerSetting.off, routes := [okRoute] }

/-- A router with a POST route followed by a GET route, for observing
where the synthetic scheduled route is spliced in. -/
def postGetRouter : Cowboy :=
  { routes :=
      [ { methods := ["POST"], matcher := fun p => p == "/p", middleware := [MwItem.fn mwSendFirst] }
      , { methods := ["GET"], matcher := fun p => p == "/g", middleware := [MwItem.fn mwSendSecond] } ] }

/-- A native GET request to `/x`. -/
def sampleNativeReq : NativeRequest := { path := "/x" }

/-- A concrete POST request declaring `application/json` with body
`{"a":1}`. -/
def jsonPostReq : CowboyRequest :=
  { method := "POST", path := "/x"
    headers := [("content-type", "application/json")]
    nativeBody := NativeBody.str "\x7b\"a\":1\x7d" }

/-- The same request with an empty body (content-length 0). -/
def jsonEmptyReq : CowboyRequest :=
  { method := "POST", path := "/x"
    headers := [("content-type", "application/json")]
    nativeBody := NativeBody.str "" }

/-- The same request with a malformed JSON body. -/
def jsonBadReq : CowboyRequest :=
  { method := "POST", path := "/x"
    headers := [("content-type", "application/json")]
    nativeBody := NativeBody.str "\x7boops" }

/-- A fresh response carrying a previously set body `"xyz"`. -/
def resWithBody : CowboyResponse := { body := BodyVal.str "xyz" }

/-- A router with no routes and the scheduler off, for the proxy
equivalence witness. -/
def plainRouter : Cowboy := { schedulerSetting := SchedulerSetting.off }

/-- A middleware that throws the given value without touching the shared
response. -/
def mwThrowing (e : ErrVal) : Mw := fun _ res _ =>
  { res := res, out := Except.error e }

/-- The `CowboyRequest` that `fetch` builds and parses for
`sampleNativeReq` against a router with default path tidying. -/
def parsedNativeGetX : CowboyRequest := { path := "/x", body := Json.obj [] }

/-! Helper lemmas about the response builder and list scanning. -/

theorem send_true_hasSent (r : CowboyResponse) (d : SendVal) :
    (r.send d true).hasSent = true := by
  unfold CowboyResponse.send
  split <;> rfl

theorem send_body_str (r : CowboyResponse) (s : String) :
    (r.send (SendVal.str s) true).body = BodyVal.str s := by
  unfold CowboyResponse.send
  split <;> rfl

theorem status_code (r : CowboyResponse) (k : Nat) : (r.status k).code = some k := by
  by_cases h1 : 200 ≤ k ∧ k ≤ 299
  · by_cases h2 : r.body.truthy = true <;> simp [CowboyResponse.status, h1, h2]
  · by_cases h3 : k < 200 ∨ (300 ≤ k ∧ k ≤ 399) <;> simp [CowboyResponse.status, h1, h3]

theorem send_code (r : CowboyResponse) (d : SendVal) :
    (r.send d true).code = if r.code = none then some 200 else r.code := by
  rcases hc : r.code with _ | k <;> simp [CowboyResponse.send, hc]

theorem status_send_spec (r : CowboyResponse) (k : Nat) (s : String) :
    ((r.status k).send (SendVal.str s) true).code = some k
    ∧ ((r.status k).send (SendVal.str s) true).body = BodyVal.str s
    ∧ ((r.status k).send (SendVal.str s) true).hasSent = true := by
  refine ⟨?_, send_body_str _ _, send_true_hasSent _ _⟩
  rw [send_code, status_code]
  simp

theorem applyError_spec (r : CowboyResponse) (e : ErrVal) :
    (applyError r e).hasSent = true
    ∧ (matchesCodeColon (errorText e) = true →
        (applyError r e).code = some (codeDigits (errorText e))
        ∧ (applyError r e).body = BodyVal.str (textRemainder (errorText e)))
    ∧ (matchesCodeColon (errorText e) = false →
        (applyError r e).code = some 400
        ∧ (applyError r e).body = BodyVal.str (errorText e)) := by
  by_cases h : matchesCodeColon (errorText e) = true
  · have hae : applyError r e
        = (r.status (codeDigits (errorText e))).send
            (SendVal.str (textRemainder (errorText e))) true := by
      simp [applyError, h]
    rw [hae]
    exact ⟨(status_send_spec _ _ _).2.2,
      fun _ => ⟨(status_send_spec _ _ _).1, (status_send_spec _ _ _).2.1⟩,
      fun hf => absurd h (by simp [hf])⟩
  · have hae : applyError r e = (r.status 400).send (SendVal.str (errorText e)) true := by
      simp [applyError, h]
    rw [hae]
    exact ⟨(status_send_spec _ _ _).2.2, fun ht => absurd ht h,
      fun _ => ⟨(status_send_spec _ _ _).1, (status_send_spec _ _ _).2.1⟩⟩

theorem find?_first {α : Type} (p : α → Bool) (pre : List α) (a : α) (post : List α)
    (ha : p a = true) (hpre : ∀ x ∈ pre, p x = false) :
    (pre ++ a :: post).find? p = some a := by
  induction pre with
  | nil => simp [List.find?, ha]
  | cons q qs ih =>
    have hq : p q = false := hpre q (by simp)
    simp only [List.cons_append, List.find?, hq]
    exact ih (fun x hx => hpre x (by simp [hx]))

theorem take_findIdx_not {α : Type} (p : α → Bool) (l : List α) :
    ∀ x ∈ l.take (l.findIdx p), p x = false := by
  induction l with
  | nil => simp
  | cons a t ih =>
    by_cases hp : p a
    · simp [List.findIdx_cons, hp]
    · intro x hx
      rw [List.findIdx_cons] at hx
      simp only [hp, cond_false, List.take_succ_cons, List.mem_cons] at hx
      rcases hx with rfl | hx
      · simpa using hp
      · exact ih x hx

theorem drop_findIdx_head {α : Type} (p : α → Bool) (l : List α) :
    ∀ x rest, l.drop (l.findIdx p) = x :: rest → p x = true := by
  induction l with
  | nil => intro x rest h; simp at h
  | cons a t ih =>
    intro x rest h
    by_cases hp : p a
    · rw [List.findIdx_cons] at h
      simp only [hp, cond_true, List.drop_zero, List.cons.injEq] at h
      exact h.1 ▸ hp
    · rw [List.findIdx_cons] at h
      simp only [hp, cond_false, List.drop_succ_cons] at h
      exact ih x rest h

theorem retHasSent_falsy (res : CowboyResponse) (v : RetVal) (hv : v.isTruthy = false) :
    retHasSent res v = false := by
  cases v with
  | undef => rfl
  | value j => cases j <;> simp_all [RetVal.isTruthy, Json.truthy, retHasSent, Json.fieldTruthy]
  | sharedRes => simp [RetVal.isTruthy] at hv
  | otherRes r => simp [RetVal.isTruthy] at hv

theorem execMiddleware_completed_return (sched : Option ScheduleHandler) (req : CowboyRequest)
    (env : Env) (m : Mw) (rest : List MwItem) (res : CowboyResponse)
    (h1 : (m req res env).out = Except.ok RetVal.sharedRes)
    (h2 : (m req res env).res.hasSent = true) :
    execMiddleware sched req env (MwItem.fn m :: rest) res
      = ((m req res env).res, ChainOut.shared) := by
  simp only [execMiddleware, runMwItem, h1, retHasSent, h2]
  simp

theorem execMiddleware_throw (sched : Option ScheduleHandler) (req : CowboyRequest) (env : Env)
    (m : Mw) (rest : List MwItem) (res : CowboyResponse) (e : ErrVal)
    (hm : (m req res env).out = Except.error e) :
    execMiddleware sched req env (MwItem.fn m :: rest) res
      = (applyError (m req res env).res e, ChainOut.shared) := by
  simp only [execMiddleware, runMwItem, hm]

theorem execMiddleware_contains_throw (sched : Option ScheduleHandler) (req : CowboyRequest)
    (env : Env) (pre : List MwItem) (e : ErrVal) (rest : List MwItem) (res : CowboyResponse) :
    (execMiddleware sched req env (pre ++ MwItem.fn (mwThrowing e) :: rest) res).snd
      = ChainOut.shared := by
  induction pre generalizing res with
  | nil => simp only [List.nil_append, execMiddleware, runMwItem, mwThrowing]
  | cons item pre ih =>
    simp only [List.cons_append, execMiddleware]
    rcases hstep : (runMwItem sched req env item res).out with e' | v
    · simp [hstep]
    · by_cases hs : retHasSent (runMwItem sched req env item res).res v = true
      · simp [hstep, hs]
      · cases pre with
        | nil =>
          simp only [hstep, hs, List.nil_append]
          simp
          exact ih _
        | cons b pre2 =>
          simp only [hstep, hs, List.cons_append]
          simp
          exact ih _

theorem execMiddleware_single_falsy (sched : Option ScheduleHandler) (req : CowboyRequest)
    (env : Env) (m : Mw) (res res' : CowboyResponse) (v : RetVal)
    (hm : m req res env = { res := res', out := Except.ok v })
    (hv : v.isTruthy = false) :
    execMiddleware sched req env [MwItem.fn m] res = (res', ChainOut.value v) := by
  have hhs := retHasSent_falsy res' v hv
  cases v with
  | undef => simp [execMiddleware, runMwItem, hm, retHasSent, RetVal.isTruthy]
  | value j => simp_all [execMiddleware, runMwItem, retHasSent, RetVal.isTruthy]
  | sharedRes => simp [RetVal.isTruthy] at hv
  | otherRes r => simp [RetVal.isTruthy] at hv

theorem fetch_falsy_chain_error (c : Cowboy) (cfReq : NativeRequest) (env0 : Env)
    (req0 : CowboyRequest) (route : Route) (res2 : CowboyResponse) (v0 : RetVal)
    (hparse : ((c.applyScheduler env0).inbound cfReq).parseBody = Except.ok req0)
    (hresolve : (c.applyScheduler env0).resolve req0 = some route)
    (hchain : (c.applyScheduler env0).routeChainResult req0 env0 route
        = (res2, ChainOut.value v0)) :
    (c.fetch cfReq env0).snd
      = Except.error "Middleware chain ended without returning a response!" := by
  unfold Cowboy.fetch
  simp only [hparse]
  unfold Cowboy.dispatch
  simp only [hresolve, hchain]

theorem fetch_result_dichotomy (c : Cowboy) (cfReq : NativeRequest) (env : Env) :
    (∃ n, (c.fetch cfReq env).snd = Except.ok n)
    ∨ (∃ req route v,
        ((c.applyScheduler env).inbound cfReq).parseBody = Except.ok req
        ∧ (c.applyScheduler env).resolve req = some route
        ∧ ((c.applyScheduler env).routeChainResult req env route).snd = ChainOut.value v
        ∧ (c.fetch cfReq env).snd
            = Except.error "Middleware chain ended without returning a response!") := by
  rcases hp : ((c.applyScheduler env).inbound cfReq).parseBody with msg | req
  · left
    refine ⟨(applyError {} (ErrVal.str msg)).toNative, ?_⟩
    unfold Cowboy.fetch
    simp only [hp]
  · rcases hr : (c.applyScheduler env).resolve req with _ | route
    · left
      refine ⟨(((execMiddleware (c.applyScheduler env).scheduleHandler req env
          (c.applyScheduler env).earlyMiddleware {}).fst.sendStatus 404).toNative), ?_⟩
      unfold Cowboy.fetch
      simp only [hp]
      unfold Cowboy.dispatch
      simp only [hr]
    · rcases hc : (c.applyScheduler env).routeChainResult req env route with ⟨res2, out⟩
      cases out with
      | shared =>
        left
        refine ⟨res2.toNative, ?_⟩
        unfold Cowboy.fetch
        simp only [hp]
        unfold Cowboy.dispatch
        simp only [hr, hc]
      | other r =>
        left
        refine ⟨r.toNative, ?_⟩
        unfold Cowboy.fetch
        simp only [hp]
        unfold Cowboy.dispatch
        simp only [hr, hc]
      | value v =>
        right
        refine ⟨req, route, v, rfl, hr, by rw [hc], ?_⟩
        unfold Cowboy.fetch
        simp only [hp]
        unfold Cowboy.dispatch
        simp only [hr, hc]

/-! Claim theorems. -/

/-- C1 (counterexample): in the chain `[mwEndNoReturn, mwMarkSecond]` the
first item marks the shared response completed (`res.end()`) but returns
`undefined`; the second item is nevertheless invoked — the final response
carries the header it sets — contradicting the claim that once an earlier
item marks the response completed no later item is ever invoked,
regardless of the value the item returns. -/
theorem c1_counterexample :
    (mwEndNoReturn sampleReq {} sampleEnv).res.hasSent = true
    ∧ (execMiddleware none sampleReq sampleEnv
        [MwItem.fn mwEndNoReturn, MwItem.fn mwMarkSecond] {}).fst.headers
        = [("X-Second", "ran")] :=
  ⟨rfl, rfl⟩

/-- C1 (amended): if a middleware item returns a value whose has-completed
flag reads true — in particular when it returns the shared response after
marking it complete, e.g. `return res.end()` — then no later item of the
chain is invoked (the remainder of the chain is irrelevant to the result)
and the chain's result is the shared response, whose has-completed flag is
true.  The short-circuit depends on the returned value: an item that marks
the response complete while returning a non-response value does not stop
the chain. -/
theorem c1_completed_return_short_circuits (sched : Option ScheduleHandler)
    (req : CowboyRequest) (env : Env) (m : Mw) (rest : List MwItem) (res : CowboyResponse)
    (h1 : (m req res env).out = Except.ok RetVal.sharedRes)
    (h2 : (m req res env).res.hasSent = true) :
    execMiddleware sched req env (MwItem.fn m :: rest) res
      = ((m req res env).res, ChainOut.shared)
    ∧ (m req res env).res.hasSent = true :=
  ⟨execMiddleware_completed_return sched req env m rest res h1 h2, h2⟩

/-- C1 (witness): the amended theorem applied to the concrete chain
`[mwEndReturn, mwMarkSecond]`. -/
theorem c1_witness :
    (mwEndReturn sampleReq {} sampleEnv).out = Except.ok RetVal.sharedRes
    ∧ (mwEndReturn sampleReq {} sampleEnv).res.hasSent = true
    ∧ (execMiddleware none sampleReq sampleEnv [MwItem.fn mwEndReturn, MwItem.fn mwMarkSecond] {}
        = ((mwEndReturn sampleReq {} sampleEnv).res, ChainOut.shared)
      ∧ (mwEndReturn sampleReq {} sampleEnv).res.hasSent = true) :=
  ⟨rfl, rfl,
    c1_completed_return_short_circuits none sampleReq sampleEnv mwEndReturn
      [MwItem.fn mwMarkSecond] {} rfl rfl⟩

/-- C2 (counterexample): a middleware throwing the string
`"404: widget missing"` produces status 404 but body `" widget missing"`
— the leading space after the colon is preserved — not the claimed
`"widget missing"`. -/
theorem c2_counterexample :
    (execMiddleware none sampleReq sampleEnv [MwItem.fn mwThrow404] {}).fst.code = some 404
    ∧ (execMiddleware none sampleReq sampleEnv [MwItem.fn mwThrow404] {}).fst.body
        = BodyVal.str " widget missing"
    ∧ BodyVal.str " widget missing" ≠ BodyVal.str "widget missing" :=
  ⟨rfl, rfl, by decide⟩

/-- C2 (amended): a middleware item that throws ends the chain on the
shared response, transformed through the error conversion: the dispatcher
derives an error text from the thrown value; if that text starts with
three digits followed by a colon, the response status is that code and the
body is everything after the colon, leading whitespace included;
otherwise the status is 400 and the body is the derived text.  Thus
throwing `"404: widget missing"` yields status 404 with body
`" widget missing"` (leading space preserved), and throwing `"oops"`
yields status 400 with body `"oops"`. -/
theorem c2_thrown_error_conversion (sched : Option ScheduleHandler) (req : CowboyRequest)
    (env : Env) (m : Mw) (rest : List MwItem) (res : CowboyResponse) (e : ErrVal)
    (hm : (m req res env).out = Except.error e) :
    execMiddleware sched req env (MwItem.fn m :: rest) res
      = (applyError (m req res env).res e, ChainOut.shared)
    ∧ (∀ r : CowboyResponse, ∀ e' : ErrVal,
        (matchesCodeColon (errorText e') = true →
          (applyError r e').code = some (codeDigits (errorText e'))
          ∧ (applyError r e').body = BodyVal.str (textRemainder (errorText e')))
        ∧ (matchesCodeColon (errorText e') = false →
          (applyError r e').code = some 400
          ∧ (applyError r e').body = BodyVal.str (errorText e')))
    ∧ (applyError {} (ErrVal.str "404: widget missing")).code = some 404
    ∧ (applyError {} (ErrVal.str "404: widget missing")).body = BodyVal.str " widget missing"
    ∧ (applyError {} (ErrVal.str "oops")).code = some 400
    ∧ (applyError {} (ErrVal.str "oops")).body = BodyVal.str "oops" :=
  ⟨execMiddleware_throw sched req env m rest res e hm,
    fun r e' => ⟨(applyError_spec r e').2.1, (applyError_spec r e').2.2⟩,
    rfl, rfl, rfl, rfl⟩

/-- C2 (witness): the amended theorem applied to a middleware throwing
`"oops"`. -/
theorem c2_witness :
    (mwThrowOops sampleReq {} sampleEnv).out = Except.error (ErrVal.str "oops")
    ∧ execMiddleware none sampleReq sampleEnv [MwItem.fn mwThrowOops] {}
        = (applyError (mwThrowOops sampleReq {} sampleEnv).res (ErrVal.str "oops"),
           ChainOut.shared) :=
  ⟨rfl,
    (c2_thrown_error_conversion none sampleReq sampleEnv mwThrowOops [] {}
      (ErrVal.str "oops") rfl).1⟩

/-- C3 (counterexample): a route whose only middleware returns `undefined`
makes `fetch` raise the fatal
`Middleware chain ended without returning a response!` error instead of
returning a native response — contradicting the claim that for every
behaviour of the middleware the invocation returns a well-formed native
response. -/
theorem c3_counterexample :
    (undefRouter.fetch sampleNativeReq sampleEnv).snd
      = Except.error "Middleware chain ended without returning a response!" :=
  rfl

/-- C3 (amended): an exception thrown by a middleware item never
propagates past the chain boundary — a chain containing a throwing item
always ends with the shared response as its result — and `fetch` returns
a well-formed native response in every case except one: when the resolved
route's chain ends with a falsy returned value, `fetch` raises the fatal
`Middleware chain ended without returning a response!` error. -/
theorem c3_no_middleware_escape (c : Cowboy) (cfReq : NativeRequest) (env : Env) :
    ((∃ n, (c.fetch cfReq env).snd = Except.ok n)
      ∨ (∃ req route v,
          ((c.applyScheduler env).inbound cfReq).parseBody = Except.ok req
          ∧ (c.applyScheduler env).resolve req = some route
          ∧ ((c.applyScheduler env).routeChainResult req env route).snd = ChainOut.value v
          ∧ (c.fetch cfReq env).snd
              = Except.error "Middleware chain ended without returning a response!"))
    ∧ (∀ (sched : Option ScheduleHandler) (req : CowboyRequest) (env' : Env)
        (pre : List MwItem) (e : ErrVal) (rest : List MwItem) (res : CowboyResponse),
        (execMiddleware sched req env' (pre ++ MwItem.fn (mwThrowing e) :: rest) res).snd
          = ChainOut.shared) :=
  ⟨fetch_result_dichotomy c cfReq env,
    fun sched req env' pre e rest res =>
      execMiddleware_contains_throw sched req env' pre e rest res⟩

/-- C4: route resolution is first-match-wins in registration order — if a
route matches the request and every route registered before it does not,
resolution selects it (so a matching route registered earlier is always
preferred over a later one) — and the registration operation appends the
new route at the end of the route list, preserving order. -/
theorem c4_first_match_wins (c : Cowboy) (req : CowboyRequest)
    (pre : List Route) (r : Route) (post : List Route)
    (hroutes : c.routes = pre ++ r :: post)
    (hmatch : routeMatches req r = true)
    (hpre : ∀ r' ∈ pre, routeMatches req r' = false) :
    c.resolve req = some r
    ∧ ∀ (c' : Cowboy) (ms : List String) (matcher : String → Bool) (mws : List MwItem),
        (c'.route ms matcher mws).routes
          = c'.routes ++ [{ methods := ms, matcher := matcher, middleware := mws }] := by
  refine ⟨?_, fun c' ms matcher mws => rfl⟩
  unfold Cowboy.resolve
  rw [hroutes]
  exact find?_first (routeMatches req) pre r post hmatch hpre

/-- C4 (witness): in a router registering two routes that both match
`GET /x`, resolution selects the earlier one. -/
theorem c4_witness :
    routeMatches sampleReq firstDupRoute = true
    ∧ routeMatches sampleReq secondDupRoute = true
    ∧ dupRouter.resolve sampleReq = some firstDupRoute :=
  ⟨rfl, rfl,
    (c4_first_match_wins dupRouter sampleReq [] firstDupRoute [secondDupRoute]
      rfl rfl (by simp)).1⟩

/-- C5 (counterexample): `status(204)` is a 2xx code, so far from clearing
a previously set body it leaves `"xyz"` in place; and `status(404)` on a
fresh response leaves the empty body instead of setting a default failure
body. -/
theorem c5_counterexample :
    (resWithBody.status 204).body = BodyVal.str "xyz"
    ∧ BodyVal.str "xyz" ≠ BodyVal.str ""
    ∧ (({} : CowboyResponse).status 404).body = BodyVal.str ""
    ∧ BodyVal.str "" ≠ BodyVal.str "404: Fail" :=
  ⟨rfl, by decide, rfl, by decide⟩

/-- C5 (amended): `status` stores the code and applies the default-body
rules actually implemented: a 2xx code with a falsy body sets the default
body `"ok"` (in particular `status(200)` on a fresh response), a 2xx code
with a truthy body leaves it unchanged (so `status(204)` does not clear a
previously set body), a 1xx or 3xx code clears the body to the null
payload, and any other code (4xx/5xx) leaves the body untouched — no
default failure body is ever set, that branch of the source being
unreachable. -/
theorem c5_status_default_body_rules (r : CowboyResponse) (k : Nat) :
    (r.status k).code = some k
    ∧ (200 ≤ k ∧ k ≤ 299 → r.body.truthy = false → (r.status k).body = BodyVal.str "ok")
    ∧ (200 ≤ k ∧ k ≤ 299 → r.body.truthy = true → (r.status k).body = r.body)
    ∧ (k < 200 ∨ (300 ≤ k ∧ k ≤ 399) → (r.status k).body = BodyVal.jsNull)
    ∧ (400 ≤ k → (r.status k).body = r.body)
    ∧ (({} : CowboyResponse).status 200).body = BodyVal.str "ok" := by
  refine ⟨status_code r k, fun h1 h2 => ?_, fun h1 h2 => ?_, fun h => ?_, fun h => ?_, rfl⟩
  · simp [CowboyResponse.status, h1, h2]
  · simp [CowboyResponse.status, h1, h2]
  · have h1 : ¬(200 ≤ k ∧ k ≤ 299) := by omega
    simp [CowboyResponse.status, h1, h]
  · have h1 : ¬(200 ≤ k ∧ k ≤ 299) := by omega
    have h2 : ¬(k < 200 ∨ (300 ≤ k ∧ k ≤ 399)) := by omega
    simp [CowboyResponse.status, h1, h2]

/-- C5 (witness): the amended theorem applied at `status(204)` on a fresh
response — the 2xx default-body rule fires, setting `"ok"`. -/
theorem c5_witness :
    (200 ≤ 204 ∧ 204 ≤ 299)
    ∧ ({} : CowboyResponse).body.truthy = false
    ∧ (({} : CowboyResponse).status 204).body = BodyVal.str "ok" :=
  ⟨by decide, rfl, (c5_status_default_body_rules {} 204).2.1 (by decide) rfl⟩

/-- C6 (counterexample): the last middleware of a chain returning the
falsy value `0` — a value that is not the response object, with the
response not completed — is not wrapped via `send`: the chain's result is
the raw value, the response stays uncompleted and no 200 status is set,
contradicting the claim's unrestricted "returns a value" premise. -/
theorem c6_counterexample :
    execMiddleware none sampleReq sampleEnv [MwItem.fn mwReturnZero] {}
      = ({}, ChainOut.value (RetVal.value (Json.num 0)))
    ∧ ({} : CowboyResponse).hasSent = false
    ∧ ({} : CowboyResponse).code ≠ some 200 :=
  ⟨rfl, rfl, by decide⟩

/-- C6 (amended): if the last item of a chain returns a truthy value that
is not a response instance and whose `hasSent` lookup reads falsy (the
response itself not being completed), that value is wrapped via the
response builder — `res.end(value)`, which routes through `send` — and
for a returned plain object this produces a response whose body is the
JSON serialization of the object and whose status is 200, the status
having been unset. -/
theorem c6_last_truthy_object_wrapped (sched : Option ScheduleHandler) (req : CowboyRequest)
    (env : Env) (m : Mw) (res res' : CowboyResponse) (fields : List (String × Json))
    (hm : m req res env = { res := res', out := Except.ok (RetVal.value (Json.obj fields)) })
    (hhs : (Json.obj fields).fieldTruthy "hasSent" = false)
    (_hsent : res'.hasSent = false)
    (hcode : res'.code = none) :
    execMiddleware sched req env [MwItem.fn m] res
      = (res'.endTransmission (some (SendVal.json (Json.obj fields))), ChainOut.shared)
    ∧ (res'.endTransmission (some (SendVal.json (Json.obj fields)))).body
        = BodyVal.str (Json.stringify (Json.obj fields))
    ∧ (res'.endTransmission (some (SendVal.json (Json.obj fields)))).code = some 200
    ∧ (res'.endTransmission (some (SendVal.json (Json.obj fields)))).hasSent = true := by
  refine ⟨?_, ?_, ?_, ?_⟩
  · simp [execMiddleware, runMwItem, hm, retHasSent, hhs, RetVal.isTruthy, RetVal.isResponse,
      Json.truthy, RetVal.toSendVal]
  · simp [CowboyResponse.endTransmission, SendVal.truthy, Json.truthy, CowboyResponse.send, hcode]
  · simp [CowboyResponse.endTransmission, SendVal.truthy, Json.truthy, CowboyResponse.send, hcode]
  · simp [CowboyResponse.endTransmission, SendVal.truthy, Json.truthy, CowboyResponse.send, hcode]

/-- C6 (witness): the amended theorem applied to a handler returning the
plain object `{a: 1}`. -/
theorem c6_witness :
    (mwReturnObj sampleReq {} sampleEnv
      = { res := {}, out := Except.ok (RetVal.value (Json.obj [("a", Json.num 1)])) })
    ∧ (execMiddleware none sampleReq sampleEnv [MwItem.fn mwReturnObj] {}
        = (({} : CowboyResponse).endTransmission
            (some (SendVal.json (Json.obj [("a", Json.num 1)]))), ChainOut.shared)
      ∧ (({} : CowboyResponse).endTransmission
          (some (SendVal.json (Json.obj [("a", Json.num 1)])))).body
          = BodyVal.str (Json.stringify (Json.obj [("a", Json.num 1)]))
      ∧ (({} : CowboyResponse).endTransmission
          (some (SendVal.json (Json.obj [("a", Json.num 1)])))).code = some 200
      ∧ (({} : CowboyResponse).endTransmission
          (some (SendVal.json (Json.obj [("a", Json.num 1)])))).hasSent = true) :=
  ⟨rfl,
    c6_last_truthy_object_wrapped none sampleReq sampleEnv mwReturnObj {} {}
      [("a", Json.num 1)] rfl rfl rfl rfl⟩

/-- C7: body parsing of an `application/json` request — for any such
request with an empty body the parse short-circuits to an empty mapping
with no error (and indeed no decode is attempted: the empty string is not
valid JSON); a POST with body `(openbrace)"a":1(closebrace)` parses to the
mapping `a = 1`; and a malformed body surfaces as the body-decode error
`Invalid JSON body` rather than an exception.  (`parseBody` itself is
modelled from the spec, its definition not being among the sources.) -/
theorem c7_json_body_parsing (req : CowboyRequest)
    (hct : contentTypeOf req.headers = "application/json")
    (hempty : req.bodyText = "") :
    req.parseBody = Except.ok { req with body := Json.obj [] }
    ∧ Json.parse "" = none
    ∧ jsonPostReq.parseBody = Except.ok { jsonPostReq with body := Json.obj [("a", Json.num 1)] }
    ∧ jsonBadReq.parseBody = Except.error "Invalid JSON body" := by
  refine ⟨?_, by rfl, by rfl, by rfl⟩
  simp [CowboyRequest.parseBody, hct, hempty]

/-- C7 (witness): the theorem applied to the concrete empty-body JSON
POST. -/
theorem c7_witness :
    contentTypeOf jsonEmptyReq.headers = "application/json"
    ∧ jsonEmptyReq.bodyText = ""
    ∧ jsonEmptyReq.parseBody = Except.ok { jsonEmptyReq with body := Json.obj [] } :=
  ⟨by rfl, by rfl, (c7_json_body_parsing jsonEmptyReq (by rfl) (by rfl)).1⟩

/-- C8: the synthetic `/__scheduled` endpoint — `fetch` runs the scheduler
setup prologue (lazily, on each dispatch); the setup is a no-op once the
one-time flag is raised or while scheduling is not enabled; on the first
dispatch with scheduling enabled it raises the flag and splices the
synthetic route immediately before the first route accepting GET (every
route before the insertion point accepts no GET, the route right after it
does), appending at the end when no GET route exists; and hitting the
endpoint with no schedule handler registered ends the chain on a 404
response with the explanatory body `No scheduler installed` rather than
an exception. -/
theorem c8_scheduler_endpoint_install (c : Cowboy) (env : Env) (cfReq : NativeRequest)
    (req : CowboyRequest) (res : CowboyResponse) :
    ((c.fetch cfReq env).fst = c.applyScheduler env)
    ∧ (c.schedulerSetup = true → c.applyScheduler env = c)
    ∧ (schedulerEnabled c.schedulerSetting env = false → c.applyScheduler env = c)
    ∧ (c.schedulerSetup = false → schedulerEnabled c.schedulerSetting env = true →
        (c.applyScheduler env).schedulerSetup = true
        ∧ (c.applyScheduler env).routes
            = c.routes.take (c.routes.findIdx (fun r => r.methods.contains "GET"))
              ++ [scheduledRoute]
              ++ c.routes.drop (c.routes.findIdx (fun r => r.methods.contains "GET"))
        ∧ (∀ r ∈ c.routes.take (c.routes.findIdx (fun r => r.methods.contains "GET")),
            r.methods.contains "GET" = false)
        ∧ (∀ x rest,
            c.routes.drop (c.routes.findIdx (fun r => r.methods.contains "GET")) = x :: rest →
            x.methods.contains "GET" = true))
    ∧ (c.scheduleHandler = none →
        execMiddleware c.scheduleHandler req env [MwItem.scheduler] res
          = ((res.status 404).send (SendVal.str "No scheduler installed") true, ChainOut.shared)
        ∧ ((res.status 404).send (SendVal.str "No scheduler installed") true).code = some 404
        ∧ ((res.status 404).send (SendVal.str "No scheduler installed") true).body
            = BodyVal.str "No scheduler installed") := by
  refine ⟨?_, fun h => ?_, fun h => ?_, fun h1 h2 => ?_, fun hnone => ?_⟩
  · rcases hp : ((c.applyScheduler env).inbound cfReq).parseBody with m | r <;>
      simp [Cowboy.fetch, hp]
  · simp [Cowboy.applyScheduler, h]
  · simp [Cowboy.applyScheduler, h]
  · refine ⟨?_, ?_, take_findIdx_not _ _, drop_findIdx_head _ _⟩ <;>
      simp [Cowboy.applyScheduler, h1, h2]
  · refine ⟨?_, (status_send_spec res 404 _).1, (status_send_spec res 404 _).2.1⟩
    simp only [execMiddleware, runMwItem, hnone, retHasSent, send_true_hasSent]
    simp

/-- C8 (witness): the theorem applied to a router with a POST route
followed by a GET route, dispatched with the scheduler binding set: the
synthetic route lands between them, and the scheduler middleware answers
404 with the explanatory body. -/
theorem c8_witness :
    postGetRouter.schedulerSetup = false
    ∧ schedulerEnabled postGetRouter.schedulerSetting schedEnv = true
    ∧ postGetRouter.scheduleHandler = none
    ∧ (postGetRouter.applyScheduler schedEnv).schedulerSetup = true
    ∧ (postGetRouter.applyScheduler schedEnv).routes
        = postGetRouter.routes.take
            (postGetRouter.routes.findIdx (fun r => r.methods.contains "GET"))
          ++ [scheduledRoute]
          ++ postGetRouter.routes.drop
              (postGetRouter.routes.findIdx (fun r => r.methods.contains "GET"))
    ∧ execMiddleware postGetRouter.scheduleHandler sampleReq schedEnv [MwItem.scheduler] {}
        = ((({} : CowboyResponse).status 404).send (SendVal.str "No scheduler installed") true,
           ChainOut.shared) := by
  have h := c8_scheduler_endpoint_install postGetRouter schedEnv sampleNativeReq sampleReq {}
  have h4 := h.2.2.2.1 rfl rfl
  have h5 := h.2.2.2.2 rfl
  exact ⟨rfl, rfl, rfl, h4.1, h4.2.1, h5.1⟩

/-- C9: `proxy(path, options, env)` refines a direct inbound invocation —
for every non-empty path it returns exactly the result of re-entering
`fetch` with the spec's fabricated equivalent request (same method,
headers and environment against that path), where plain key-value body
payloads are converted to a multipart-form container and native body
containers pass through unchanged; in particular
`proxy('/widgets', (method GET), env)` equals a direct inbound GET to
`/widgets`. -/
theorem c9_proxy_refines_direct (c : Cowboy) (url : String) (options : ProxyOptions) (env : Env)
    (h : url ≠ "") :
    c.proxy url options env = Except.ok (specDirectInvocation c url options env)
    ∧ (∀ b, convertProxyBody (ProxyBody.native b) = b)
    ∧ (∀ kv, convertProxyBody (ProxyBody.obj kv) = NativeBody.formData kv)
    ∧ plainRouter.proxy "/widgets" { method := "GET" } sampleEnv
        = Except.ok (plainRouter.fetch { method := "GET", path := "/widgets" } sampleEnv) := by
  refine ⟨?_, fun b => rfl, fun kv => rfl, by rfl⟩
  unfold Cowboy.proxy specDirectInvocation fabricatedRequest
  simp [h]

/-- C9 (witness): the theorem applied to the `/widgets` GET proxy call. -/
theorem c9_witness :
    "/widgets" ≠ ""
    ∧ plainRouter.proxy "/widgets" { method := "GET" } sampleEnv
        = Except.ok (specDirectInvocation plainRouter "/widgets" { method := "GET" } sampleEnv) :=
  ⟨by decide,
    (c9_proxy_refines_direct plainRouter "/widgets" { method := "GET" } sampleEnv (by decide)).1⟩

/-- C10: a last middleware item that returns a falsy value — even after
completing the shared response, e.g. `res.send(...)` followed by a bare
return — leaves that falsy value as the chain's result (the termination
check inspects only the returned value, never the shared response's own
has-completed flag, as witnessed by `res'` being arbitrary, completed or
not), and the dispatcher then raises the fatal
`Middleware chain ended without returning a response!` error instead of
serving the completed response. -/
theorem c10_falsy_chain_fatal (sched : Option ScheduleHandler) (req : CowboyRequest) (env : Env)
    (m : Mw) (res res' : CowboyResponse) (v : RetVal)
    (c : Cowboy) (cfReq : NativeRequest) (env0 : Env) (req0 : CowboyRequest) (route : Route)
    (res2 : CowboyResponse) (v0 : RetVal)
    (hm : m req res env = { res := res', out := Except.ok v })
    (hv : v.isTruthy = false)
    (hparse : ((c.applyScheduler env0).inbound cfReq).parseBody = Except.ok req0)
    (hresolve : (c.applyScheduler env0).resolve req0 = some route)
    (hchain : (c.applyScheduler env0).routeChainResult req0 env0 route
        = (res2, ChainOut.value v0)) :
    execMiddleware sched req env [MwItem.fn m] res = (res', ChainOut.value v)
    ∧ (c.fetch cfReq env0).snd
        = Except.error "Middleware chain ended without returning a response!" :=
  ⟨execMiddleware_single_falsy sched req env m res res' v hm hv,
    fetch_falsy_chain_error c cfReq env0 req0 route res2 v0 hparse hresolve hchain⟩

/-- C10 (witness): the theorem applied to a handler that sends `"hi"` and
returns nothing (`undefined`), inside a router whose only route holds that
handler: the chain result is the falsy value even though the shared
response is completed, and `fetch` raises the fatal error. -/
theorem c10_witness :
    mwSendNoReturn sampleReq {} sampleEnv
      = { res := ({} : CowboyResponse).send (SendVal.str "hi") true
          out := Except.ok RetVal.undef }
    ∧ (({} : CowboyResponse).send (SendVal.str "hi") true).hasSent = true
    ∧ (execMiddleware none sampleReq sampleEnv [MwItem.fn mwSendNoReturn] {}
        = (({} : CowboyResponse).send (SendVal.str "hi") true, ChainOut.value RetVal.undef)
      ∧ (sendNoReturnRouter.fetch sampleNativeReq sampleEnv).snd
          = Except.error "Middleware chain ended without returning a response!") := by
  refine ⟨by rfl, by rfl, ?_⟩
  exact c10_falsy_chain_fatal none sampleReq sampleEnv mwSendNoReturn {}
    (({} : CowboyResponse).send (SendVal.str "hi") true) RetVal.undef
    sendNoReturnRouter sampleNativeReq sampleEnv parsedNativeGetX sendNoReturnRoute
    (({} : CowboyResponse).send (SendVal.str "hi") true) RetVal.undef
    (by rfl) (by rfl) (by rfl) (by rfl) (by rfl)
